import Mathlib

/-!
Shallow embedding of the resilience core of `open-fin-terminal`:
the adapter registry (`packages/adapters/src/registry.ts` and `types.ts`),
the token-bucket rate limiter (`packages/adapters-oss/shared/rate-limiter.ts`
and the second variant at the end of `packages/adapters-oss/shared/cache.ts`),
and the TTL memory cache (`packages/adapters-oss/shared/cache.ts`).

Conventions: JavaScript timestamps (`Date.now()`) are modelled as integers
(registry) or rationals (rate limiter, where division by `tokensPerSecond`
occurs); JS floating-point numbers are modelled as rationals; a JS `Map`
is modelled as an association list whose `set` replaces in place and whose
`delete` removes the key; `async` methods are modelled as state-passing
functions, with the rate limiter's `setTimeout` suspension made explicit
as a pending-timer field.
-/

namespace OpenFinTerminal

/-- `HealthStatus` from `types.ts`: `'healthy' | 'degraded' | 'unavailable'`. -/
inductive HealthStatus where
  | healthy
  | degraded
  | unavailable
deriving DecidableEq, Repr

/-- `AdapterType` from `types.ts`: `'built-in' | 'optional'`. -/
inductive AdapterType where
  | builtIn
  | optional
deriving DecidableEq, Repr

/-- `HealthCheck` record from `types.ts`.  `lastChecked : Date` becomes an
integer millisecond timestamp; `successRate` (a JS float) becomes a rational. -/
structure HealthCheck where
  adapter : String
  status : HealthStatus
  latency : Int
  successRate : Rat
  lastChecked : Int
  error : Option String
deriving DecidableEq, Repr

/-- The five `AdapterError` codes from `types.ts`. -/
inductive AdapterErrorCode where
  | UNSUPPORTED_OPERATION
  | RATE_LIMITED
  | UNAVAILABLE
  | INVALID_REQUEST
  | UNKNOWN
deriving DecidableEq, Repr

/-- `AdapterError` from `types.ts` (the fields a thrown error carries that the
spec talks about: message, adapter, code). -/
structure AdapterError where
  message : String
  adapter : String
  code : AdapterErrorCode
deriving DecidableEq, Repr

/-- A `DataAdapter` (from `types.ts`), restricted to the members the registry
reads: its `name`, its `type`, and its `healthCheck` method.  The probe is a
function of the current time; a JS rejection (`throw`) is an `Except.error`
carrying the error message. -/
structure DataAdapter where
  name : String
  type : AdapterType
  healthCheck : Int → Except String HealthCheck

/-- Association-list analogue of `Map.prototype.get` (keys are unique in a
JS `Map`, so first-match lookup agrees with it). -/
def mapGet (l : List (String × α)) (k : String) : Option α :=
  match l.find? (fun p => p.1 == k) with
  | some p => some p.2
  | none => none

/-- Association-list analogue of `Map.prototype.set`: replaces the value of
the (unique) existing binding in place, otherwise appends a fresh binding. -/
def mapSet (k : String) (v : α) : List (String × α) → List (String × α)
  | [] => [(k, v)]
  | p :: rest => if p.1 == k then (k, v) :: rest else p :: mapSet k v rest

/-- Association-list analogue of `Map.prototype.delete` (only removes the key;
returns the surviving bindings). -/
def mapDelete (k : String) (l : List (String × α)) : List (String × α) :=
  l.filter (fun p => !(p.1 == k))

/-- The mutable fields of `AdapterRegistry` (from `registry.ts`) together with
the `healthCheckInterval` option.  The adapters `Map` keyed by name is an
association list of the adapters themselves (`register` keys strictly by
`adapter.name`, so the key is recoverable). -/
structure RegistryState where
  adapters : List DataAdapter
  fallbackChain : List String
  healthCache : List (String × HealthCheck)
  healthCheckInterval : Int

/-- A fresh registry: `new AdapterRegistry(...)` starts with empty adapter map,
empty chain and empty health cache. -/
def freshRegistry (interval : Int) : RegistryState :=
  { adapters := [], fallbackChain := [], healthCache := [], healthCheckInterval := interval }

/-- `this.adapters.get(name)` — the adapters map is keyed by `adapter.name`. -/
def lookupAdapter (st : RegistryState) (name : String) : Option DataAdapter :=
  st.adapters.find? (fun a => a.name == name)

/-- `this.healthCache.get(name)`. -/
def lookupHealth (st : RegistryState) (name : String) : Option HealthCheck :=
  mapGet st.healthCache name

/-- `AdapterRegistry.register` (registry.ts lines 258–275).  Throws when the
name is already present; otherwise stores the adapter and, when the name is
not already in the fallback chain, appends it (built-in) or prepends it
(optional). -/
def register (st : RegistryState) (adapter : DataAdapter) : Except String RegistryState :=
  if (lookupAdapter st adapter.name).isSome then
    .error "Adapter is already registered"
  else
    let adapters := st.adapters ++ [adapter]
    let chain :=
      if st.fallbackChain.contains adapter.name then st.fallbackChain
      else
        match adapter.type with
        | .builtIn => st.fallbackChain ++ [adapter.name]
        | .optional => adapter.name :: st.fallbackChain
    .ok { st with adapters := adapters, fallbackChain := chain }

/-- `AdapterRegistry.unregister` (registry.ts lines 283–290). -/
def unregister (st : RegistryState) (name : String) : Bool × RegistryState :=
  if (lookupAdapter st name).isSome then
    (true,
      { st with
        adapters := st.adapters.filter (fun a => !(a.name == name))
        healthCache := mapDelete name st.healthCache
        fallbackChain := st.fallbackChain.filter (fun n => !(n == name)) })
  else
    (false, st)

/-- `AdapterRegistry.setFallbackChain` (registry.ts lines 301–310): validates
every name before any mutation, then replaces the chain wholesale. -/
def setFallbackChain (st : RegistryState) (chain : List String) : Except String RegistryState :=
  if chain.all (fun n => (lookupAdapter st n).isSome) then
    .ok { st with fallbackChain := chain }
  else
    .error "Unknown adapter in fallback chain"

/-- `AdapterRegistry.getFallbackChain` (registry.ts lines 317–319) returns a
copy `[...this.fallbackChain]`; as a pure value it is the chain itself (the
aliasing content of the copy is modelled separately with an explicit heap). -/
def getFallbackChain (st : RegistryState) : List String :=
  st.fallbackChain

/-- `AdapterRegistry.dispose` (registry.ts lines 496–501): clears adapters,
health cache and chain (timer handling is outside the state modelled here). -/
def dispose (st : RegistryState) : RegistryState :=
  { st with adapters := [], healthCache := [], fallbackChain := [] }

/-- `AdapterRegistry.checkHealth` (registry.ts lines 408–430): `undefined` when
the adapter is unknown; otherwise runs the probe, catching a rejection and
converting it to an `unavailable` record with `latency = -1`,
`successRate = 0`, `lastChecked = now` and the failure's message; either way
the produced record replaces any previous one in the health cache. -/
def checkHealth (now : Int) (st : RegistryState) (name : String) :
    Option HealthCheck × RegistryState :=
  match lookupAdapter st name with
  | none => (none, st)
  | some adapter =>
    match adapter.healthCheck now with
    | .ok health =>
      (some health, { st with healthCache := mapSet name health st.healthCache })
    | .error msg =>
      let health : HealthCheck :=
        { adapter := name, status := .unavailable, latency := -1, successRate := 0,
          lastChecked := now, error := some msg }
      (some health, { st with healthCache := mapSet name health st.healthCache })

/-- The record `checkHealth` builds in its catch branch for a probe failure
with message `msg` at time `now`. -/
def unavailableRecord (name msg : String) (now : Int) : HealthCheck :=
  { adapter := name, status := .unavailable, latency := -1, successRate := 0,
    lastChecked := now, error := some msg }

/-- `status === 'healthy' || status === 'degraded'` — the selectability test
used by `isHealthy`. -/
def selectable (s : HealthStatus) : Bool :=
  s == .healthy || s == .degraded

/-- The tail of `AdapterRegistry.isHealthy`: perform a fresh health check and
test the resulting status (an absent result, i.e. unknown adapter, is
`undefined?.status`, which matches neither string). -/
def probeHealthy (now : Int) (st : RegistryState) (name : String) : Bool × RegistryState :=
  match checkHealth now st name with
  | (some health, st') => (selectable health.status, st')
  | (none, st') => (false, st')

/-- `AdapterRegistry.isHealthy` (registry.ts lines 440–456): trusts a cached
record only while `now - lastChecked < healthCheckInterval`, otherwise probes
afresh. -/
def isHealthy (now : Int) (st : RegistryState) (name : String) : Bool × RegistryState :=
  match lookupHealth st name with
  | some cached =>
    if now - cached.lastChecked < st.healthCheckInterval then
      (selectable cached.status, st)
    else
      probeHealthy now st name
  | none => probeHealthy now st name

/-- The `for (const name of this.fallbackChain)` loop of
`AdapterRegistry.getAdapter` (registry.ts lines 341–355), threading the
health-cache mutations of `isHealthy`, ending in the thrown `AdapterError`. -/
def getAdapterChain (now : Int) (st : RegistryState) :
    List String → Except AdapterError (DataAdapter × RegistryState)
  | [] =>
    .error { message := "No healthy data adapters available", adapter := "registry",
             code := .UNAVAILABLE }
  | name :: rest =>
    match isHealthy now st name with
    | (true, st') =>
      match lookupAdapter st' name with
      | some adapter => .ok (adapter, st')
      | none => getAdapterChain now st' rest
    | (false, st') => getAdapterChain now st' rest

/-- `AdapterRegistry.getAdapter` (registry.ts lines 331–355).  Note the JS
truthiness test `if (preferredName)`: an `undefined` *or empty* preferred name
skips the preferred branch entirely. -/
def getAdapter (now : Int) (st : RegistryState) (preferredName : Option String) :
    Except AdapterError (DataAdapter × RegistryState) :=
  match preferredName with
  | some p =>
    if p == "" then getAdapterChain now st st.fallbackChain
    else
      match lookupAdapter st p with
      | some adapter =>
        match isHealthy now st adapter.name with
        | (true, st') => .ok (adapter, st')
        | (false, st') => getAdapterChain now st' st'.fallbackChain
      | none => getAdapterChain now st st.fallbackChain
  | none => getAdapterChain now st st.fallbackChain

/-! ### Registry operation sequences

`register` and `setFallbackChain` throw *before* mutating anything, so a
failed call leaves the registry object as it was: the step function of an
operation sequence keeps the old state on `Except.error`. -/

/-- One externally invokable mutating registry operation. -/
inductive RegistryOp where
  | reg (adapter : DataAdapter)
  | unreg (name : String)
  | setChain (chain : List String)
  | disp

/-- Effect of one operation on the registry object; a thrown exception leaves
the object unchanged (both throwing methods validate before mutating). -/
def stepOp (st : RegistryState) : RegistryOp → RegistryState
  | .reg a =>
    match register st a with
    | .ok st' => st'
    | .error _ => st
  | .unreg n => (unregister st n).2
  | .setChain c =>
    match setFallbackChain st c with
    | .ok st' => st'
    | .error _ => st
  | .disp => dispose st

/-- State after running a sequence of operations from a fresh registry. -/
def runOps (interval : Int) (ops : List RegistryOp) : RegistryState :=
  ops.foldl stepOp (freshRegistry interval)

/-- `register st a` as a state transformer (old state kept on throw). -/
def registerStep (st : RegistryState) (a : DataAdapter) : RegistryState :=
  stepOp st (.reg a)

/-- `setFallbackChain st c` as a state transformer (old state kept on throw). -/
def setFallbackChainStep (st : RegistryState) (c : List String) : RegistryState :=
  stepOp st (.setChain c)

/-! ### Spec-side selection function

Written from the spec's words for `getAdapter` ("if `preferredName` given, try
it first; if healthy/degraded, return it immediately … Otherwise walk the
fallback chain in order and return the first source whose health is healthy or
degraded.  If none qualifies, fail with `UNAVAILABLE`"), to be compared with
the source-derived `getAdapter`.  Chain entries that are not sources
(unregistered names) cannot be "the first source"; health is the fresh-enough
health of `isHealthy`, and probes taken along the way update the cache. -/

/-- Walk of the fallback chain per the spec: skip names that are not
registered sources, return the first source whose (fresh-enough) health is
healthy or degraded, fail with `UNAVAILABLE` when none qualifies. -/
def specSelect (now : Int) (st : RegistryState) :
    List String → Except AdapterError (DataAdapter × RegistryState)
  | [] =>
    .error { message := "No healthy data adapters available", adapter := "registry",
             code := .UNAVAILABLE }
  | name :: rest =>
    match lookupAdapter st name with
    | none => specSelect now st rest
    | some adapter =>
      match isHealthy now st name with
      | (true, st') => .ok (adapter, st')
      | (false, st') => specSelect now st' rest

/-- Spec-side `getAdapter`, amended with the JS-truthiness proviso: a
*non-empty* preferred name that is registered and healthy/degraded wins;
otherwise the fallback chain is walked in order. -/
def getAdapterSpec (now : Int) (st : RegistryState) (preferredName : Option String) :
    Except AdapterError (DataAdapter × RegistryState) :=
  match preferredName with
  | some p =>
    if p == "" then specSelect now st st.fallbackChain
    else
      match lookupAdapter st p with
      | some adapter =>
        match isHealthy now st p with
        | (true, st') => .ok (adapter, st')
        | (false, st') => specSelect now st' st'.fallbackChain
      | none => specSelect now st st.fallbackChain
  | none => specSelect now st st.fallbackChain

/-- Projection used to state concrete selection results (adapters contain a
probe function, so whole-result equality is not decidable; the chosen
adapter's name is). -/
def chosenName (r : Except AdapterError (DataAdapter × RegistryState)) : Option String :=
  match r with
  | .ok (a, _) => some a.name
  | .error _ => none

/-! ### Token-bucket rate limiter

Two classes named `TokenBucketLimiter` exist: `rate-limiter.ts`, and the
variant at the end of `cache.ts` which additionally keeps the handle of its
pending `setTimeout` in `timerRef` and clears it in `reset()`.  The shared
bucket arithmetic uses rationals for JS floats, with time in rational
milliseconds. -/

/-- The numeric fields common to both `TokenBucketLimiter` classes. -/
structure TokenBucketLimiter where
  tokens : Rat
  lastRefill : Rat
  tokensPerSecond : Rat
  capacity : Rat
deriving DecidableEq, Repr

/-- `new TokenBucketLimiter(tokensPerSecond)` at time `now`: capacity is
`tokensPerSecond`, bucket starts full. -/
def mkLimiter (tokensPerSecond : Rat) (now : Rat) : TokenBucketLimiter :=
  { tokens := tokensPerSecond, lastRefill := now,
    tokensPerSecond := tokensPerSecond, capacity := tokensPerSecond }

/-- `refillTokens` (identical in both variants): adds
`(elapsed / 1000) * tokensPerSecond`, capped at capacity. -/
def refillTokens (now : Rat) (b : TokenBucketLimiter) : TokenBucketLimiter :=
  { b with
    tokens := min b.capacity (b.tokens + ((now - b.lastRefill) / 1000) * b.tokensPerSecond)
    lastRefill := now }

/-- `isReady(tokens)` (identical in both variants): refills, then compares;
the refill mutates the limiter, so the updated limiter is returned too. -/
def isReady (now : Rat) (tokens : Rat) (b : TokenBucketLimiter) :
    Bool × TokenBucketLimiter :=
  let b1 := refillTokens now b
  (decide (tokens ≤ b1.tokens), b1)

/-- An outstanding `setTimeout` created by a suspending `acquire`: when it
fires (at `fireAt`) the continuation refills and deducts `request` tokens. -/
structure PendingWait where
  fireAt : Rat
  request : Rat
deriving DecidableEq, Repr

/-- A limiter together with its (at most one) outstanding suspended `acquire`
continuation. -/
structure LimiterProc where
  bucket : TokenBucketLimiter
  pending : Option PendingWait
deriving DecidableEq, Repr

/-- The synchronous prefix of `acquire(n)` (identical in both variants):
refill; if enough tokens, deduct and finish; otherwise compute
`waitMs = ((n - tokens) / tokensPerSecond) * 1000` and schedule the
continuation `waitMs` later. -/
def acquireStart (now : Rat) (n : Rat) (w : LimiterProc) : LimiterProc :=
  let b1 := refillTokens now w.bucket
  if n ≤ b1.tokens then
    { bucket := { b1 with tokens := b1.tokens - n }, pending := w.pending }
  else
    let waitMs := ((n - b1.tokens) / b1.tokensPerSecond) * 1000
    { bucket := b1, pending := some { fireAt := now + waitMs, request := n } }

/-- The `setTimeout` continuation firing at its scheduled time: refill again,
deduct, and clear the pending record.  With no pending wait (in particular
after the cache.ts variant's `clearTimeout`) nothing happens. -/
def timerFire (w : LimiterProc) : LimiterProc :=
  match w.pending with
  | none => w
  | some p =>
    let b1 := refillTokens p.fireAt w.bucket
    { bucket := { b1 with tokens := b1.tokens - p.request }, pending := none }

/-- `reset()` of `rate-limiter.ts` (lines 90–93): restores full capacity and
resets `lastRefill`; it holds no timer handle, so an outstanding `setTimeout`
continuation is untouched. -/
def resetV1 (now : Rat) (w : LimiterProc) : LimiterProc :=
  { bucket := { w.bucket with tokens := w.bucket.capacity, lastRefill := now }
    pending := w.pending }

/-- `reset()` of the cache.ts variant (lines 170–177): restores full capacity,
resets `lastRefill`, and `clearTimeout`s the pending wait, whose continuation
(and with it the resolution of the suspended `acquire`) therefore never runs. -/
def resetV2 (now : Rat) (w : LimiterProc) : LimiterProc :=
  { bucket := { w.bucket with tokens := w.bucket.capacity, lastRefill := now }
    pending := none }

/-- Completion of an `acquire` begun at `now`: if it did not suspend, its
bucket is final; if it suspended, the timer fires on schedule and the
continuation runs.  Returns the suspension duration (if any) and the final
bucket. -/
def acquireFinish (now : Rat) (w : LimiterProc) : Option Rat × TokenBucketLimiter :=
  match w.pending with
  | none => (none, w.bucket)
  | some p => (some (p.fireAt - now), (timerFire w).bucket)

/-- Whole `acquire(n)` of `rate-limiter.ts` run to completion with the timer
firing exactly on schedule. -/
def acquire (now : Rat) (n : Rat) (b : TokenBucketLimiter) :
    Option Rat × TokenBucketLimiter :=
  acquireFinish now (acquireStart now n { bucket := b, pending := none })

/-! ### TTL memory cache (`cache.ts` lines 21–113) -/

/-- `CacheEntry` from `cache.ts`: value plus `expiresAt` (ms timestamp). -/
structure CacheEntry (T : Type) where
  value : T
  expiresAt : Rat
deriving DecidableEq, Repr

/-- `MemoryCache`: a JS `Map` of entries plus the default TTL. -/
structure MemoryCache (T : Type) where
  entries : List (String × CacheEntry T)
  defaultTtlMs : Rat

namespace MemoryCache

/-- `this.cache.get(key)`. -/
def lookupEntry (c : MemoryCache T) (key : String) : Option (CacheEntry T) :=
  mapGet c.entries key

/-- `MemoryCache.get` (cache.ts lines 38–52): miss on absence; on
`Date.now() > expiresAt` the entry is deleted and a miss returned; otherwise
the stored value is returned. -/
def get (now : Rat) (c : MemoryCache T) (key : String) : Option T × MemoryCache T :=
  match lookupEntry c key with
  | none => (none, c)
  | some entry =>
    if now > entry.expiresAt then
      (none, { c with entries := mapDelete key c.entries })
    else
      (some entry.value, c)

/-- `MemoryCache.set` (cache.ts lines 61–64). -/
def set (now : Rat) (c : MemoryCache T) (key : String) (value : T) (ttlMs : Option Rat) :
    MemoryCache T :=
  let expiresAt := now + ttlMs.getD c.defaultTtlMs
  { c with entries := mapSet key { value := value, expiresAt := expiresAt } c.entries }

/-- `MemoryCache.has` (cache.ts lines 69–79): same expiry rule as `get`,
including the delete-on-expiry side effect. -/
def has (now : Rat) (c : MemoryCache T) (key : String) : Bool × MemoryCache T :=
  match lookupEntry c key with
  | none => (false, c)
  | some entry =>
    if now > entry.expiresAt then
      (false, { c with entries := mapDelete key c.entries })
    else
      (true, c)

/-- `MemoryCache.size` (cache.ts lines 98–100): raw map size, expired entries
included. -/
def size (c : MemoryCache T) : Nat :=
  c.entries.length

/-- `MemoryCache.cleanup` (cache.ts lines 105–112): removes every entry with
`now > expiresAt`. -/
def cleanup (now : Rat) (c : MemoryCache T) : MemoryCache T :=
  { c with entries := c.entries.filter (fun p => !(decide (now > p.2.expiresAt))) }

end MemoryCache

/-! ### Heap model for the getter-copy claims

`getFallbackChain` returns `[...this.fallbackChain]` and `getHealthStatus`
returns `new Map(this.healthCache)`.  To state that these are *fresh copies*
(mutating the returned object does not affect the registry), arrays and maps
are placed in explicit stores addressed by references. -/

/-- A heap of JS arrays-of-strings and of JS health maps. -/
structure RegistryHeap where
  arrays : List (List String)
  maps : List (List (String × HealthCheck))

/-- The registry's references into the heap: `this.fallbackChain` and
`this.healthCache`. -/
structure RegistryRefs where
  chainRef : Nat
  healthRef : Nat

/-- Read an array cell. -/
def readArray (h : RegistryHeap) (r : Nat) : List String :=
  h.arrays.getD r []

/-- Read a map cell. -/
def readMap (h : RegistryHeap) (r : Nat) : List (String × HealthCheck) :=
  h.maps.getD r []

/-- In-place mutation of an array object (e.g. `arr.push(...)`,
`arr[i] = ...` performed by the caller on the returned array). -/
def writeArray (h : RegistryHeap) (r : Nat) (v : List String) : RegistryHeap :=
  { h with arrays := h.arrays.set r v }

/-- In-place mutation of a map object (e.g. `m.set(...)`, `m.delete(...)`). -/
def writeMap (h : RegistryHeap) (r : Nat) (v : List (String × HealthCheck)) : RegistryHeap :=
  { h with maps := h.maps.set r v }

/-- `getFallbackChain` at heap level: allocate a fresh array holding a copy of
the chain's content (`[...this.fallbackChain]`) and return its reference. -/
def getFallbackChainH (h : RegistryHeap) (r : RegistryRefs) : RegistryHeap × Nat :=
  ({ h with arrays := h.arrays ++ [readArray h r.chainRef] }, h.arrays.length)

/-- `getHealthStatus` at heap level: allocate a fresh map holding a copy of
the health cache's bindings (`new Map(this.healthCache)`) and return its
reference. -/
def getHealthStatusH (h : RegistryHeap) (r : RegistryRefs) : RegistryHeap × Nat :=
  ({ h with maps := h.maps ++ [readMap h r.healthRef] }, h.maps.length)

/-- The pure registry value determined by heap contents (adapters and the
interval are not heap-allocated here). -/
def heapRegistry (h : RegistryHeap) (r : RegistryRefs) (adapters : List DataAdapter)
    (interval : Int) : RegistryState :=
  { adapters := adapters, fallbackChain := readArray h r.chainRef,
    healthCache := readMap h r.healthRef, healthCheckInterval := interval }

/-- The heap after a caller obtains both getter results and then mutates the
two returned objects in place: call `getFallbackChain`, call
`getHealthStatus`, then write arbitrary contents `va` / `vm` into the
returned array and map. -/
def mutateReturnedCopies (h : RegistryHeap) (r : RegistryRefs)
    (va : List String) (vm : List (String × HealthCheck)) : RegistryHeap :=
  writeMap
    (writeArray (getHealthStatusH (getFallbackChainH h r).1 r).1
      (getFallbackChainH h r).2 va)
    (getHealthStatusH (getFallbackChainH h r).1 r).2 vm

/-! ### Invariants and concrete instances used in the theorems below -/

/-- Side condition on an operation under which the spec's no-duplicates chain
invariant is preserved: `setFallbackChain` must be called with a
duplicate-free list (the source validates registration of each name but not
duplication). -/
def opOk : RegistryOp → Prop
  | .setChain c => c.Nodup
  | _ => True

/-- The spec's fallback-chain invariant: no duplicate names, and every name
references a currently-registered adapter. -/
def RegistryInv (st : RegistryState) : Prop :=
  st.fallbackChain.Nodup ∧ ∀ n ∈ st.fallbackChain, (lookupAdapter st n).isSome = true

/-- A probe that always succeeds with a healthy record. -/
def okProbe (name : String) : Int → Except String HealthCheck :=
  fun now =>
    .ok { adapter := name, status := .healthy, latency := 5, successRate := 1,
          lastChecked := now, error := none }

/-- A probe that always rejects (throws) with the given message. -/
def failProbe (msg : String) : Int → Except String HealthCheck :=
  fun _ => .error msg

/-- A mock adapter with a healthy probe. -/
def mkA (name : String) (t : AdapterType) : DataAdapter :=
  { name := name, type := t, healthCheck := okProbe name }

/-- A fresh healthy cached record (checked at time 0) for `n`. -/
def freshHealthy (n : String) : HealthCheck :=
  { adapter := n, status := .healthy, latency := 5, successRate := 1,
    lastChecked := 0, error := none }

/-- Registry state witnessing the JS-truthiness gap of `getAdapter`: adapters
named `"a"` and `""` are registered, both with fresh healthy cached records,
and the chain is `["a", ""]`. -/
def stTruthy : RegistryState :=
  { adapters := [mkA "a" .builtIn, mkA "" .builtIn]
    fallbackChain := ["a", ""]
    healthCache := [("a", freshHealthy "a"), ("", freshHealthy "")]
    healthCheckInterval := 60000 }

/-- Operation sequence whose run produces a duplicated fallback chain. -/
def opsDup : List RegistryOp :=
  [.reg (mkA "a" .builtIn), .setChain ["a", "a"]]

/-- Operation sequence used as a benign witness input. -/
def opsW : List RegistryOp :=
  [.reg (mkA "a" .builtIn), .reg (mkA "b" .optional), .setChain ["a", "b"], .unreg "b"]

/-- A limiter of capacity 1 whose caller suspended at time 0 asking for 2
tokens: the continuation is scheduled to fire at time 1000. -/
def wSuspended : LimiterProc :=
  acquireStart 0 2 { bucket := mkLimiter 1 0, pending := none }

/-- Registry used by the `checkHealth` witness: one adapter whose probe
rejects with "Network error" (as in the registry test suite). -/
def stFailing : RegistryState :=
  { adapters := [{ name := "t", type := .builtIn, healthCheck := failProbe "Network error" }]
    fallbackChain := ["t"]
    healthCache := []
    healthCheckInterval := 60000 }

/-- Registry used by the `isHealthy`-freshness witness: one adapter, one stale
cached record (checked at time 0, interval 60000, probed at time 60000). -/
def stStale : RegistryState :=
  { adapters := [mkA "s" .builtIn]
    fallbackChain := ["s"]
    healthCache := [("s", freshHealthy "s")]
    healthCheckInterval := 60000 }

/-- Concrete cache with one entry expiring at time 100, for the cache
witness. -/
def cacheW : MemoryCache Nat :=
  { entries := [("k", { value := 7, expiresAt := 100 })], defaultTtlMs := 300000 }

/-- Concrete heap for the getter-copy witness: one chain array and one health
map, both at reference 0. -/
def heapW : RegistryHeap :=
  { arrays := [["a"]], maps := [[("a", freshHealthy "a")]] }

/-- The registry's references into `heapW`. -/
def refsW : RegistryRefs :=
  { chainRef := 0, healthRef := 0 }

/-! ## Helper lemmas -/

theorem find?_append_isSome {α : Type} (l₁ l₂ : List α) (p : α → Bool)
    (h : (l₁.find? p).isSome = true) : ((l₁ ++ l₂).find? p).isSome = true := by
  rw [List.find?_append]
  cases hf : l₁.find? p with
  | none => rw [hf] at h; simp at h
  | some x => simp [hf]

theorem find?_append_of_none {α : Type} (l₁ l₂ : List α) (p : α → Bool)
    (h : l₁.find? p = none) : (l₁ ++ l₂).find? p = l₂.find? p := by
  rw [List.find?_append, h, Option.none_or]

theorem find?_filter_isSome {α : Type} (l : List α) (q r : α → Bool)
    (himp : ∀ x, q x = true → r x = true) (h : (l.find? q).isSome = true) :
    ((l.filter r).find? q).isSome = true := by
  rw [List.find?_isSome] at h ⊢
  obtain ⟨x, hx, hqx⟩ := h
  exact ⟨x, List.mem_filter.mpr ⟨hx, himp x hqx⟩, hqx⟩

theorem mapGet_eq_none_iff {α : Type} (l : List (String × α)) (k : String) :
    mapGet l k = none ↔ ∀ p ∈ l, (p.1 == k) = false := by
  constructor
  · intro h p hp
    rw [mapGet] at h
    cases hf : l.find? (fun p => p.1 == k) with
    | some x => rw [hf] at h; simp at h
    | none =>
      have := List.find?_eq_none.mp hf p hp
      simpa using this
  · intro h
    rw [mapGet]
    have : l.find? (fun p => p.1 == k) = none := List.find?_eq_none.mpr (by
      intro p hp
      simp [h p hp])
    rw [this]

theorem mapGet_mapSet_self {α : Type} (k : String) (v : α) (l : List (String × α)) :
    mapGet (mapSet k v l) k = some v := by
  induction l with
  | nil => simp [mapSet, mapGet, List.find?_cons]
  | cons hd tl ih =>
    rw [mapSet]
    by_cases hhd : (hd.1 == k) = true
    · simp [hhd, mapGet, List.find?_cons]
    · simp only [Bool.not_eq_true] at hhd
      simpa [hhd, mapGet, List.find?_cons] using ih

theorem lookupAdapter_name {st : RegistryState} {p : String} {a : DataAdapter}
    (h : lookupAdapter st p = some a) : a.name = p := by
  rw [lookupAdapter] at h
  have := List.find?_some h
  simpa using this

theorem checkHealth_frame (now : Int) (st : RegistryState) (name : String) :
    (checkHealth now st name).2.adapters = st.adapters ∧
    (checkHealth now st name).2.fallbackChain = st.fallbackChain ∧
    (checkHealth now st name).2.healthCheckInterval = st.healthCheckInterval := by
  rw [checkHealth]
  refine ⟨?_, ?_, ?_⟩ <;>
    (split
     · rfl
     · split <;> rfl)

theorem probeHealthy_frame (now : Int) (st : RegistryState) (name : String) :
    (probeHealthy now st name).2.adapters = st.adapters ∧
    (probeHealthy now st name).2.fallbackChain = st.fallbackChain ∧
    (probeHealthy now st name).2.healthCheckInterval = st.healthCheckInterval := by
  have h := checkHealth_frame now st name
  rw [probeHealthy]
  rcases hc : checkHealth now st name with ⟨ho, st2⟩
  rw [hc] at h
  cases ho with
  | none => exact h
  | some hh => exact h

theorem isHealthy_frame (now : Int) (st : RegistryState) (name : String) :
    (isHealthy now st name).2.adapters = st.adapters ∧
    (isHealthy now st name).2.fallbackChain = st.fallbackChain ∧
    (isHealthy now st name).2.healthCheckInterval = st.healthCheckInterval := by
  rw [isHealthy]
  cases lookupHealth st name with
  | none => exact probeHealthy_frame now st name
  | some cached =>
    dsimp only
    by_cases hfresh : now - cached.lastChecked < st.healthCheckInterval
    · rw [if_pos hfresh]
      exact ⟨rfl, rfl, rfl⟩
    · rw [if_neg hfresh]
      exact probeHealthy_frame now st name

theorem checkHealth_unreg (now : Int) (st : RegistryState) (name : String)
    (h : lookupAdapter st name = none) : checkHealth now st name = (none, st) := by
  rw [checkHealth, h]

theorem isHealthy_unreg_snd (now : Int) (st : RegistryState) (name : String)
    (h : lookupAdapter st name = none) : (isHealthy now st name).2 = st := by
  rw [isHealthy]
  have hp : (probeHealthy now st name).2 = st := by
    rw [probeHealthy, checkHealth_unreg now st name h]
  cases lookupHealth st name with
  | none => exact hp
  | some cached =>
    dsimp only
    by_cases hfresh : now - cached.lastChecked < st.healthCheckInterval
    · rw [if_pos hfresh]
    · rw [if_neg hfresh]; exact hp

theorem lookupAdapter_of_frame {st st' : RegistryState} (h : st'.adapters = st.adapters)
    (n : String) : lookupAdapter st' n = lookupAdapter st n := by
  rw [lookupAdapter, lookupAdapter, h]

theorem getAdapterChain_eq_specSelect (now : Int) (l : List String) :
    ∀ st : RegistryState, getAdapterChain now st l = specSelect now st l := by
  induction l with
  | nil => intro st; rfl
  | cons n rest ih =>
    intro st
    rw [getAdapterChain, specSelect]
    rcases hIH : isHealthy now st n with ⟨b, st'⟩
    have hframe : st'.adapters = st.adapters := by
      have h1 := (isHealthy_frame now st n).1
      rw [hIH] at h1
      exact h1
    cases hA : lookupAdapter st n with
    | none =>
      have hst' : st' = st := by
        have h2 := isHealthy_unreg_snd now st n hA
        rw [hIH] at h2
        exact h2
      cases b
      · dsimp only
        rw [hst']
        exact ih st
      · dsimp only
        rw [lookupAdapter_of_frame hframe n, hA, hst']
        exact ih st
    | some a =>
      cases b
      · dsimp only
        exact ih st'
      · dsimp only
        rw [lookupAdapter_of_frame hframe n, hA]

/-- C1 (amended): `getAdapter` implements the spec's selection policy — a
*non-empty* preferred name that is registered with fresh-enough healthy or
degraded health wins; otherwise the fallback chain is walked in order and the
first registered source whose fresh-enough health is healthy or degraded is
returned; if none qualifies the result is the thrown `AdapterError` with code
`UNAVAILABLE`.  (The non-emptiness proviso is forced by the JS truthiness test
`if (preferredName)`; see the counterexample.) -/
theorem getAdapter_eq_spec (now : Int) (st : RegistryState) (preferredName : Option String) :
    getAdapter now st preferredName = getAdapterSpec now st preferredName := by
  cases preferredName with
  | none => exact getAdapterChain_eq_specSelect now st.fallbackChain st
  | some p =>
    rw [getAdapter.eq_def, getAdapterSpec.eq_def]
    dsimp only
    by_cases hp : (p == "") = true
    · rw [if_pos hp, if_pos hp]
      exact getAdapterChain_eq_specSelect now st.fallbackChain st
    · rw [if_neg hp, if_neg hp]
      cases hA : lookupAdapter st p with
      | none =>
        dsimp only
        exact getAdapterChain_eq_specSelect now st.fallbackChain st
      | some a =>
        dsimp only
        rw [lookupAdapter_name hA]
        rcases hIH : isHealthy now st p with ⟨b, st'⟩
        cases b
        · dsimp only
          exact getAdapterChain_eq_specSelect now st'.fallbackChain st'
        · rfl

/-- C1 as stated is false on the code: in `stTruthy` the preferred name `""`
is registered and its cached health is fresh and healthy, yet
`getAdapter(0, stTruthy, some "")` returns the chain head `"a"`, because
`if (preferredName)` treats the empty string as absent. -/
theorem getAdapter_truthiness_cex :
    (lookupAdapter stTruthy "").isSome = true ∧
    (isHealthy 0 stTruthy "").1 = true ∧
    chosenName (getAdapter 0 stTruthy (some "")) = some "a" ∧
    some "a" ≠ some "" := by
  refine ⟨rfl, rfl, rfl, by simp⟩

theorem lookupAdapter_append_isSome (st : RegistryState) (a : DataAdapter) (n : String)
    (h : (lookupAdapter st n).isSome = true) :
    ((st.adapters ++ [a]).find? (fun x => x.name == n)).isSome = true :=
  find?_append_isSome _ _ _ h

theorem stepOp_preserves_inv (st : RegistryState) (op : RegistryOp)
    (hInv : RegistryInv st) (hop : opOk op) : RegistryInv (stepOp st op) := by
  obtain ⟨hnd, hreg⟩ := hInv
  cases op with
  | disp =>
    refine ⟨List.nodup_nil, ?_⟩
    intro n hn
    simp [stepOp, dispose] at hn
  | setChain c =>
    rw [stepOp, setFallbackChain]
    by_cases hall : c.all (fun n => (lookupAdapter st n).isSome) = true
    · rw [if_pos hall]
      exact ⟨hop, fun n hn => List.all_eq_true.mp hall n hn⟩
    · rw [if_neg hall]
      exact ⟨hnd, hreg⟩
  | unreg name =>
    rw [stepOp, unregister]
    by_cases hmem : (lookupAdapter st name).isSome = true
    · rw [if_pos hmem]
      dsimp only
      refine ⟨hnd.filter _, ?_⟩
      intro n hn
      rw [List.mem_filter] at hn
      obtain ⟨hn1, hn2⟩ := hn
      have hne : (n == name) = false := by
        cases hb : n == name
        · rfl
        · rw [hb] at hn2; simp at hn2
      refine find?_filter_isSome _ _ _ ?_ (hreg n hn1)
      intro x hx
      have hxn : x.name = n := by simpa using hx
      rw [hxn, hne]
      rfl
    · rw [if_neg hmem]
      exact ⟨hnd, hreg⟩
  | reg a =>
    rw [stepOp, register]
    by_cases hdup : (lookupAdapter st a.name).isSome = true
    · rw [if_pos hdup]
      exact ⟨hnd, hreg⟩
    · rw [if_neg hdup]
      dsimp only
      have hnone : lookupAdapter st a.name = none := by
        cases hfind : lookupAdapter st a.name
        · rfl
        · rw [hfind] at hdup; simp at hdup
      have hnotmem : a.name ∉ st.fallbackChain := by
        intro hmem
        exact hdup (hreg a.name hmem)
      have hc : ¬(st.fallbackChain.contains a.name = true) := by
        intro hcont
        exact hnotmem (List.elem_iff.mp hcont)
      rw [if_neg hc]
      have hself : ((st.adapters ++ [a]).find? (fun x => x.name == a.name)).isSome = true := by
        rw [find?_append_of_none _ _ _ hnone]
        simp [List.find?_cons]
      cases a.type with
      | builtIn =>
        dsimp only
        refine ⟨?_, ?_⟩
        · rw [List.nodup_append]
          exact ⟨hnd, List.nodup_singleton _, by
            intro x hx hx'
            rw [List.mem_singleton] at hx'
            subst hx'
            exact hnotmem hx⟩
        · intro n hn
          rcases List.mem_append.mp hn with hn | hn
          · exact lookupAdapter_append_isSome st a n (hreg n hn)
          · rw [List.mem_singleton] at hn
            subst hn
            exact hself
      | optional =>
        dsimp only
        refine ⟨List.nodup_cons.mpr ⟨hnotmem, hnd⟩, ?_⟩
        intro n hn
        rcases List.mem_cons.mp hn with hn | hn
        · subst hn
          exact hself
        · exact lookupAdapter_append_isSome st a n (hreg n hn)

/-- C2 (amended): starting from a fresh registry, for every sequence of
register / unregister / setFallbackChain / dispose operations in which every
`setFallbackChain` call passes a duplicate-free list, the fallback chain has
no duplicate names and every name in it references a currently-registered
adapter.  (The duplicate-free proviso is forced by the counterexample:
`setFallbackChain` validates that each name is registered but never checks
for duplicates.) -/
theorem runOps_chain_inv (interval : Int) (ops : List RegistryOp)
    (h : ∀ op ∈ ops, opOk op) :
    (runOps interval ops).fallbackChain.Nodup ∧
    ∀ n ∈ (runOps interval ops).fallbackChain,
      (lookupAdapter (runOps interval ops) n).isSome = true := by
  have main : ∀ (l : List RegistryOp) (st : RegistryState), RegistryInv st →
      (∀ op ∈ l, opOk op) → RegistryInv (l.foldl stepOp st) := by
    intro l
    induction l with
    | nil => intro st hs _; exact hs
    | cons o rest ih =>
      intro st hs hall
      rw [List.foldl_cons]
      exact ih _ (stepOp_preserves_inv st o hs (hall o (List.mem_cons_self o rest)))
        (fun op hop => hall op (List.mem_cons_of_mem o hop))
  exact main ops (freshRegistry interval)
    ⟨List.nodup_nil, by intro n hn; simp [freshRegistry] at hn⟩ h

/-- C2 as stated is false on the code: register adapter `"a"`, then call
`setFallbackChain(["a", "a"])` — every name in the list is registered, so the
call is accepted — and the resulting chain `["a", "a"]` has a duplicate. -/
theorem fallbackChain_dup_cex :
    (runOps 60000 opsDup).fallbackChain = ["a", "a"] ∧
    ¬ (runOps 60000 opsDup).fallbackChain.Nodup := by
  have hchain : (runOps 60000 opsDup).fallbackChain = ["a", "a"] := rfl
  refine ⟨hchain, ?_⟩
  rw [hchain]
  decide

/-- Witness for the amended C2 at a concrete operation sequence. -/
theorem runOps_chain_inv_witness :
    (runOps 60000 opsW).fallbackChain.Nodup :=
  (runOps_chain_inv 60000 opsW (by
    intro op hop
    rcases List.mem_cons.mp hop with rfl | hop
    · trivial
    rcases List.mem_cons.mp hop with rfl | hop
    · trivial
    rcases List.mem_cons.mp hop with rfl | hop
    · show (["a", "b"] : List String).Nodup
      decide
    rcases List.mem_cons.mp hop with rfl | hop
    · trivial
    · simp at hop)).1

/-- C4: `setFallbackChain` validates every name against the registered set
before any mutation: with any unknown name it throws and — modelled by the
step function keeping the old state on a throw — leaves the previous chain
entirely unchanged; with all names registered it replaces the chain wholesale
with the given list. -/
theorem setFallbackChain_atomic (st : RegistryState) (names : List String) :
    (names.all (fun n => (lookupAdapter st n).isSome) = false →
      setFallbackChain st names = .error "Unknown adapter in fallback chain" ∧
      setFallbackChainStep st names = st) ∧
    (names.all (fun n => (lookupAdapter st n).isSome) = true →
      setFallbackChain st names = .ok { st with fallbackChain := names }) := by
  constructor
  · intro hall
    have hcond : ¬(names.all (fun n => (lookupAdapter st n).isSome) = true) := by
      rw [hall]; simp
    constructor
    · rw [setFallbackChain, if_neg hcond]
    · rw [setFallbackChainStep, stepOp, setFallbackChain, if_neg hcond]
  · intro hall
    rw [setFallbackChain, if_pos hall]

/-- Witness for C4 at a concrete registry and an unknown name. -/
theorem setFallbackChain_atomic_witness :
    ((["zzz"] : List String).all (fun n => (lookupAdapter stTruthy n).isSome) = false) ∧
    setFallbackChainStep stTruthy ["zzz"] = stTruthy :=
  ⟨rfl, ((setFallbackChain_atomic stTruthy ["zzz"]).1 rfl).2⟩

/-- C8: `register` throws when the name is already present and — the throw
happens before any mutation, so the step function keeps the old state —
leaves adapters and chain unchanged; on success it stores the adapter and
appends its name to the chain for a built-in adapter, prepends it for an
optional one.  The hypothesis is the reachable-state invariant that every
chain name is registered (proved in the C2 theorem), which rules out the
never-reachable case of the new name already sitting in the chain. -/
theorem register_spec (st : RegistryState) (a : DataAdapter)
    (hinv : ∀ n ∈ st.fallbackChain, (lookupAdapter st n).isSome = true) :
    ((lookupAdapter st a.name).isSome = true →
      register st a = .error "Adapter is already registered" ∧ registerStep st a = st) ∧
    (lookupAdapter st a.name = none →
      register st a = .ok { st with
        adapters := st.adapters ++ [a]
        fallbackChain :=
          match a.type with
          | .builtIn => st.fallbackChain ++ [a.name]
          | .optional => a.name :: st.fallbackChain }) := by
  constructor
  · intro hdup
    constructor
    · rw [register, if_pos hdup]
    · rw [registerStep, stepOp, register, if_pos hdup]
  · intro hnone
    have hdup : ¬((lookupAdapter st a.name).isSome = true) := by
      rw [hnone]; simp
    have hc : ¬(st.fallbackChain.contains a.name = true) := by
      intro hcont
      have hmem := List.elem_iff.mp hcont
      have := hinv a.name hmem
      rw [hnone] at this
      simp at this
    rw [register, if_neg hdup, if_neg hc]

/-- Witness for C8: registering a fresh optional adapter into `stStale`
prepends its name to the chain. -/
theorem register_spec_witness :
    lookupAdapter stStale "x" = none ∧
    register stStale (mkA "x" .optional) = .ok { stStale with
      adapters := stStale.adapters ++ [mkA "x" .optional]
      fallbackChain := "x" :: stStale.fallbackChain } :=
  ⟨rfl, (register_spec stStale (mkA "x" .optional) (by
    intro n hn
    rcases List.mem_singleton.mp hn with rfl
    rfl)).2 rfl⟩

/-- C5: `checkHealth` returns undefined exactly when the name is not
registered (and then changes nothing); when the adapter's probe throws, the
failure is caught and converted into a record with status `unavailable` and
`error` set to the failure's message, the record replaces any prior record
for the name in the health cache, and it is returned — the failure is never
propagated (in the model, `checkHealth` is total and never returns an
exception value). -/
theorem checkHealth_spec (now : Int) (st : RegistryState) (name : String) :
    ((checkHealth now st name).1 = none ↔ lookupAdapter st name = none) ∧
    (lookupAdapter st name = none → (checkHealth now st name).2 = st) ∧
    (∀ a msg, lookupAdapter st name = some a → a.healthCheck now = .error msg →
      checkHealth now st name =
        (some (unavailableRecord name msg now),
         { st with healthCache := mapSet name (unavailableRecord name msg now) st.healthCache }) ∧
      lookupHealth (checkHealth now st name).2 name = some (unavailableRecord name msg now)) := by
  refine ⟨?_, ?_, ?_⟩
  · constructor
    · intro h
      cases hA : lookupAdapter st name with
      | none => rfl
      | some a =>
        rw [checkHealth, hA] at h
        dsimp only at h
        cases hp : a.healthCheck now with
        | ok hl => rw [hp] at h; simp at h
        | error m => rw [hp] at h; simp at h
    · intro h
      rw [checkHealth, h]
  · intro h
    rw [checkHealth, h]
  · intro a msg hA hp
    have heq : checkHealth now st name =
        (some (unavailableRecord name msg now),
         { st with healthCache := mapSet name (unavailableRecord name msg now) st.healthCache }) := by
      rw [checkHealth, hA]
      dsimp only
      rw [hp]
      rfl
    refine ⟨heq, ?_⟩
    rw [heq]
    exact mapGet_mapSet_self name _ st.healthCache

/-- Witness for C5: the probe of `stFailing`'s adapter `"t"` rejects with
"Network error"; `checkHealth` converts it into an unavailable record. -/
theorem checkHealth_spec_witness :
    lookupAdapter stFailing "t" =
      some { name := "t", type := .builtIn, healthCheck := failProbe "Network error" } ∧
    (checkHealth 0 stFailing "t").1 = some (unavailableRecord "t" "Network error" 0) :=
  ⟨rfl, by
    have h := (checkHealth_spec 0 stFailing "t").2.2
      { name := "t", type := .builtIn, healthCheck := failProbe "Network error" }
      "Network error" rfl rfl
    rw [h.1]⟩

/-- C7: during adapter selection (`isHealthy`), a cached health record is
trusted without re-probing if and only if its age `now - lastChecked` is
strictly below `healthCheckInterval`; when the record is absent or at least
that old, a fresh probe is performed, its result stored, and the selection
decision made from the fresh record. -/
theorem isHealthy_freshness (now : Int) (st : RegistryState) (name : String)
    (hreg : (lookupAdapter st name).isSome = true) :
    (∀ c, lookupHealth st name = some c →
      now - c.lastChecked < st.healthCheckInterval →
      isHealthy now st name = (selectable c.status, st)) ∧
    ((lookupHealth st name = none ∨
      ∃ c, lookupHealth st name = some c ∧ st.healthCheckInterval ≤ now - c.lastChecked) →
      ∃ hc st2, checkHealth now st name = (some hc, st2) ∧
        isHealthy now st name = (selectable hc.status, st2) ∧
        lookupHealth st2 name = some hc) := by
  constructor
  · intro c hc hfresh
    rw [isHealthy, hc]
    dsimp only
    rw [if_pos hfresh]
  · intro hstale
    obtain ⟨a, hA⟩ : ∃ a, lookupAdapter st name = some a := by
      cases hA : lookupAdapter st name with
      | none => rw [hA] at hreg; simp at hreg
      | some a => exact ⟨a, rfl⟩
    have hch : ∃ hc st2, checkHealth now st name = (some hc, st2) ∧
        lookupHealth st2 name = some hc := by
      cases hp : a.healthCheck now with
      | ok hl =>
        have heq : checkHealth now st name =
            (some hl, { st with healthCache := mapSet name hl st.healthCache }) := by
          rw [checkHealth, hA]
          dsimp only
          rw [hp]
        exact ⟨hl, _, heq, mapGet_mapSet_self name _ st.healthCache⟩
      | error msg =>
        have h := ((checkHealth_spec now st name).2.2 a msg hA hp)
        have h2 := h.2
        rw [h.1] at h2
        exact ⟨_, _, h.1, h2⟩
    obtain ⟨hc, st2, hcheck, hstore⟩ := hch
    refine ⟨hc, st2, hcheck, ?_, hstore⟩
    rcases hstale with hnone | ⟨c, hcached, hold⟩
    · rw [isHealthy, hnone]
      dsimp only
      rw [probeHealthy, hcheck]
    · rw [isHealthy, hcached]
      dsimp only
      rw [if_neg (not_lt.mpr hold), probeHealthy, hcheck]

/-- Witness for C7: in `stStale` the record for `"s"` was checked at time 0,
so at time 10 it is fresh and trusted without a probe. -/
theorem isHealthy_freshness_witness :
    (lookupAdapter stStale "s").isSome = true ∧
    lookupHealth stStale "s" = some (freshHealthy "s") ∧
    isHealthy 10 stStale "s" = (selectable (freshHealthy "s").status, stStale) :=
  ⟨rfl, rfl,
    (isHealthy_freshness 10 stStale "s" rfl).1 (freshHealthy "s") rfl (by decide)⟩

/-- C3 as stated is false for the `rate-limiter.ts` variant: in `wSuspended`
an `acquire(2)` on a capacity-1 limiter suspended at time 0 with its
continuation scheduled for time 1000; `reset()` at time 500 (which holds no
timer handle) leaves the pending wait in place, and the continuation then
fires on its original schedule, refills and deducts, completing the suspended
acquire (final token count -1). -/
theorem resetV1_no_cancel_cex :
    wSuspended.pending = some { fireAt := 1000, request := 2 } ∧
    (resetV1 500 wSuspended).pending = some { fireAt := 1000, request := 2 } ∧
    timerFire (resetV1 500 wSuspended) =
      { bucket := { tokens := -1, lastRefill := 1000, tokensPerSecond := 1, capacity := 1 },
        pending := none } := by
  refine ⟨?_, ?_, ?_⟩ <;>
    norm_num [wSuspended, acquireStart, mkLimiter, refillTokens, resetV1, timerFire, min_def]

/-- C3 (amended): for every limiter state, `reset()` immediately restores the
token count to full capacity, so `isReady(capacity)` is true right
afterwards, in both `TokenBucketLimiter` variants; the `cache.ts` variant
additionally cancels any pending wait (`clearTimeout` on `timerRef`), so the
suspended acquire's continuation never runs, while the `rate-limiter.ts`
variant holds no timer handle and leaves a pending wait untouched (it still
fires on its original schedule; see the counterexample). -/
theorem reset_spec (now : Rat) (w : LimiterProc) :
    (resetV1 now w).bucket.tokens = w.bucket.capacity ∧
    (resetV2 now w).bucket.tokens = w.bucket.capacity ∧
    (isReady now (resetV1 now w).bucket.capacity (resetV1 now w).bucket).1 = true ∧
    (isReady now (resetV2 now w).bucket.capacity (resetV2 now w).bucket).1 = true ∧
    (resetV2 now w).pending = none ∧
    timerFire (resetV2 now w) = resetV2 now w ∧
    (resetV1 now w).pending = w.pending := by
  refine ⟨rfl, rfl, ?_, ?_, rfl, rfl, rfl⟩ <;>
    simp [isReady, refillTokens, resetV1, resetV2]

/-- C6: `acquire(n)` first refills proportionally to elapsed time (capped at
capacity); with enough tokens it deducts and returns without suspending;
otherwise it suspends for exactly `((n - tokens) / tokensPerSecond) * 1000`
milliseconds (where `tokens` is the just-refilled count) and only after that
wait refills again and deducts `n`.  The positive-rate hypothesis keeps the
rational division model aligned with the JS float division of the source
(which would give an infinite wait at rate 0). -/
theorem acquire_spec (now n : Rat) (b : TokenBucketLimiter)
    (hpos : 0 < b.tokensPerSecond) :
    ((refillTokens now b).tokens =
      min b.capacity (b.tokens + ((now - b.lastRefill) / 1000) * b.tokensPerSecond)) ∧
    (n ≤ (refillTokens now b).tokens →
      acquire now n b =
        (none, { refillTokens now b with tokens := (refillTokens now b).tokens - n })) ∧
    (¬ n ≤ (refillTokens now b).tokens →
      acquire now n b =
        (some (((n - (refillTokens now b).tokens) / b.tokensPerSecond) * 1000),
         { refillTokens (now + ((n - (refillTokens now b).tokens) / b.tokensPerSecond) * 1000)
             (refillTokens now b) with
           tokens :=
             (refillTokens (now + ((n - (refillTokens now b).tokens) / b.tokensPerSecond) * 1000)
               (refillTokens now b)).tokens - n })) := by
  refine ⟨rfl, ?_, ?_⟩
  · intro hle
    have hstart : acquireStart now n { bucket := b, pending := none } =
        { bucket := { refillTokens now b with tokens := (refillTokens now b).tokens - n },
          pending := none } := by
      rw [acquireStart]
      dsimp only
      rw [if_pos hle]
    rw [acquire, hstart]
    rfl
  · intro hgt
    have hstart : acquireStart now n { bucket := b, pending := none } =
        { bucket := refillTokens now b,
          pending := some
            { fireAt := now + ((n - (refillTokens now b).tokens) / b.tokensPerSecond) * 1000,
              request := n } } := by
      rw [acquireStart]
      dsimp only
      rw [if_neg hgt]
      rfl
    rw [acquire, hstart]
    dsimp only [acquireFinish, timerFire]
    rw [add_sub_cancel_left]

/-- Witness for C6 at a concrete limiter (rate 1, created at time 0): the
refill at time 500 follows the proportional capped formula. -/
theorem acquire_spec_witness :
    ((0 : Rat) < (mkLimiter 1 0).tokensPerSecond) ∧
    (refillTokens 500 (mkLimiter 1 0)).tokens =
      min (mkLimiter 1 0).capacity
        ((mkLimiter 1 0).tokens +
          ((500 - (mkLimiter 1 0).lastRefill) / 1000) * (mkLimiter 1 0).tokensPerSecond) :=
  ⟨by simp [mkLimiter], (acquire_spec 500 2 (mkLimiter 1 0) (by simp [mkLimiter])).1⟩

theorem mapDelete_length_of_mem {α : Type} (k : String) (l : List (String × α))
    (hnd : (l.map Prod.fst).Nodup) (h : (mapGet l k).isSome = true) :
    (mapDelete k l).length + 1 = l.length := by
  induction l with
  | nil => simp [mapGet] at h
  | cons hd tl ih =>
    rw [List.map_cons, List.nodup_cons] at hnd
    obtain ⟨hh, ht⟩ := hnd
    by_cases hk : (hd.1 == k) = true
    · have hkeq : hd.1 = k := by simpa using hk
      have hkeep : ∀ p ∈ tl, (!(p.1 == k)) = true := by
        intro p hp
        have hpk : p.1 ≠ k := by
          intro hpe
          apply hh
          rw [hkeq, ← hpe]
          exact List.mem_map_of_mem Prod.fst hp
        simp [hpk]
      rw [mapDelete, List.filter_cons]
      have hdk : (!(hd.1 == k)) = false := by rw [hk]; rfl
      rw [hdk]
      simp only [Bool.false_eq_true, if_false, List.length_cons]
      rw [List.filter_eq_self.mpr hkeep]
    · simp only [Bool.not_eq_true] at hk
      have htl : (mapGet tl k).isSome = true := by
        rw [mapGet] at h ⊢
        rw [List.find?_cons, hk] at h
        exact h
      rw [mapDelete, List.filter_cons, hk]
      simp only [Bool.not_false, if_pos, List.length_cons]
      rw [mapDelete] at ih
      rw [ih ht htl]

theorem mapGet_filter_none {α : Type} (l : List (String × α)) (k : String)
    (r : String × α → Bool) (hnd : (l.map Prod.fst).Nodup) (e : α)
    (h : mapGet l k = some e) (hr : r (k, e) = false) :
    mapGet (l.filter r) k = none := by
  induction l with
  | nil => simp [mapGet] at h
  | cons hd tl ih =>
    rw [List.map_cons, List.nodup_cons] at hnd
    obtain ⟨hh, ht⟩ := hnd
    by_cases hk : (hd.1 == k) = true
    · have hkeq : hd.1 = k := by simpa using hk
      have hde : hd = (k, e) := by
        rw [mapGet, List.find?_cons, hk] at h
        simp only [Option.some.injEq] at h
        calc hd = (hd.1, hd.2) := rfl
          _ = (k, e) := by rw [hkeq, h]
      have hdrop : r hd = false := by rw [hde]; exact hr
      rw [List.filter_cons, hdrop]
      simp only [Bool.false_eq_true, if_false]
      rw [mapGet_eq_none_iff]
      intro p hp
      have hpk : p.1 ≠ k := by
        intro hpe
        apply hh
        rw [hkeq, ← hpe]
        exact List.mem_map_of_mem Prod.fst (List.mem_filter.mp hp).1
      simp [hpk]
    · simp only [Bool.not_eq_true] at hk
      have htl : mapGet tl k = some e := by
        rw [mapGet] at h ⊢
        rw [List.find?_cons, hk] at h
        exact h
      by_cases hrhd : r hd = true
      · rw [List.filter_cons, hrhd]
        simp only [if_pos]
        rw [mapGet, List.find?_cons, hk]
        rw [mapGet] at ih
        exact ih ht htl
      · simp only [Bool.not_eq_true] at hrhd
        rw [List.filter_cons, hrhd]
        simp only [Bool.false_eq_true, if_false]
        exact ih ht htl

/-- C9: for every cache state and key, `get` returns the stored value when the
key is present and `now <= expiresAt`; it misses when the key is absent or
`now > expiresAt`, deleting the entry in the expired case as a side effect of
the read; `has` applies the same rule (including the eviction side effect);
`size` still counts an expired-but-unaccessed entry — it drops by exactly one
through the `get`-triggered eviction — and `cleanup` removes exactly the
expired entries.  (Unique keys, as in a JS `Map`, are assumed for the
counting clause.) -/
theorem memoryCache_spec {T : Type} (now : Rat) (c : MemoryCache T) (key : String)
    (hnd : (c.entries.map Prod.fst).Nodup) :
    (∀ e, c.lookupEntry key = some e → now ≤ e.expiresAt →
      MemoryCache.get now c key = (some e.value, c) ∧
      MemoryCache.has now c key = (true, c)) ∧
    (c.lookupEntry key = none →
      MemoryCache.get now c key = (none, c) ∧
      MemoryCache.has now c key = (false, c)) ∧
    (∀ e, c.lookupEntry key = some e → e.expiresAt < now →
      MemoryCache.get now c key = (none, { c with entries := mapDelete key c.entries }) ∧
      MemoryCache.has now c key = (false, { c with entries := mapDelete key c.entries }) ∧
      MemoryCache.size (MemoryCache.get now c key).2 + 1 = MemoryCache.size c ∧
      (MemoryCache.cleanup now c).lookupEntry key = none) ∧
    ((MemoryCache.cleanup now c).entries =
      c.entries.filter (fun p => !(decide (now > p.2.expiresAt)))) := by
  refine ⟨?_, ?_, ?_, rfl⟩
  · intro e he hlive
    have hnot : ¬(now > e.expiresAt) := not_lt.mpr hlive
    constructor
    · rw [MemoryCache.get, he]
      dsimp only
      rw [if_neg hnot]
    · rw [MemoryCache.has, he]
      dsimp only
      rw [if_neg hnot]
  · intro he
    constructor
    · rw [MemoryCache.get, he]
    · rw [MemoryCache.has, he]
  · intro e he hexp
    have hgt : now > e.expiresAt := hexp
    have hget : MemoryCache.get now c key = (none, { c with entries := mapDelete key c.entries }) := by
      rw [MemoryCache.get, he]
      dsimp only
      rw [if_pos hgt]
    refine ⟨hget, ?_, ?_, ?_⟩
    · rw [MemoryCache.has, he]
      dsimp only
      rw [if_pos hgt]
    · rw [hget]
      exact mapDelete_length_of_mem key c.entries hnd (by rw [MemoryCache.lookupEntry] at he; rw [he]; rfl)
    · rw [MemoryCache.cleanup, MemoryCache.lookupEntry]
      dsimp only
      refine mapGet_filter_none c.entries key _ hnd e he ?_
      dsimp only
      rw [decide_eq_true hgt]
      rfl

/-- Witness for C9 at a concrete one-entry cache, read before expiry. -/
theorem memoryCache_spec_witness :
    ((cacheW.entries.map Prod.fst).Nodup) ∧
    MemoryCache.get 50 cacheW "k" = (some 7, cacheW) := by
  have hnd : (cacheW.entries.map Prod.fst).Nodup := by
    show (["k"] : List String).Nodup
    decide
  refine ⟨hnd, ?_⟩
  exact ((memoryCache_spec 50 cacheW "k" hnd).1 { value := 7, expiresAt := 100 } rfl
    (by norm_num)).1

theorem getD_set_append_ne {α : Type} (l : List α) (x v d : α) (i : Nat)
    (hi : i < l.length) : ((l ++ [x]).set l.length v).getD i d = l.getD i d := by
  simp [List.getD, List.get?_eq_getElem?, List.getElem?_set_ne (show l.length ≠ i by omega),
    List.getElem?_append_left hi]

theorem getD_append_self {α : Type} (l : List α) (x d : α) :
    (l ++ [x]).getD l.length d = x := by
  simp [List.getD, List.get?_eq_getElem?, List.getElem?_append_right (Nat.le_refl _)]

/-- C10: `getFallbackChain` (`[...this.fallbackChain]`) and `getHealthStatus`
(`new Map(this.healthCache)`) return freshly allocated copies: the returned
references are distinct from the registry's internal ones, their contents
equal the internal contents at the time of the call, and mutating the
returned array and map in place leaves the registry's internal chain and
health-cache contents — and hence the behavior of `getAdapter` and the
results of subsequent getter calls — unchanged. -/
theorem getters_return_copies (h : RegistryHeap) (r : RegistryRefs)
    (hc : r.chainRef < h.arrays.length) (hm : r.healthRef < h.maps.length) :
    (getFallbackChainH h r).2 ≠ r.chainRef ∧
    (getHealthStatusH (getFallbackChainH h r).1 r).2 ≠ r.healthRef ∧
    readArray (getHealthStatusH (getFallbackChainH h r).1 r).1 (getFallbackChainH h r).2
      = readArray h r.chainRef ∧
    readMap (getHealthStatusH (getFallbackChainH h r).1 r).1
        (getHealthStatusH (getFallbackChainH h r).1 r).2
      = readMap h r.healthRef ∧
    (∀ va vm, readArray (mutateReturnedCopies h r va vm) r.chainRef = readArray h r.chainRef) ∧
    (∀ va vm, readMap (mutateReturnedCopies h r va vm) r.healthRef = readMap h r.healthRef) ∧
    (∀ va vm, readArray (getFallbackChainH (mutateReturnedCopies h r va vm) r).1
        (getFallbackChainH (mutateReturnedCopies h r va vm) r).2 = readArray h r.chainRef) ∧
    (∀ va vm adapters interval now pref,
      getAdapter now (heapRegistry (mutateReturnedCopies h r va vm) r adapters interval) pref
        = getAdapter now (heapRegistry h r adapters interval) pref) := by
  have harr : ∀ va vm, readArray (mutateReturnedCopies h r va vm) r.chainRef
      = readArray h r.chainRef := by
    intro va vm
    rw [mutateReturnedCopies, writeMap, writeArray, getHealthStatusH, getFallbackChainH]
    dsimp only
    rw [readArray, readArray]
    dsimp only
    exact getD_set_append_ne h.arrays _ va [] r.chainRef hc
  have hmap : ∀ va vm, readMap (mutateReturnedCopies h r va vm) r.healthRef
      = readMap h r.healthRef := by
    intro va vm
    rw [mutateReturnedCopies, writeMap, writeArray, getHealthStatusH, getFallbackChainH]
    dsimp only
    rw [readMap, readMap]
    dsimp only
    exact getD_set_append_ne h.maps _ vm [] r.healthRef hm
  refine ⟨?_, ?_, ?_, ?_, harr, hmap, ?_, ?_⟩
  · exact fun heq => absurd heq.symm (Nat.ne_of_lt hc)
  · exact fun heq => absurd heq.symm (Nat.ne_of_lt hm)
  · rw [getHealthStatusH, getFallbackChainH]
    dsimp only
    rw [readArray]
    dsimp only
    exact getD_append_self h.arrays _ []
  · rw [getHealthStatusH, getFallbackChainH]
    dsimp only
    rw [readMap]
    dsimp only
    exact getD_append_self h.maps _ []
  · intro va vm
    rw [getFallbackChainH]
    dsimp only
    rw [readArray]
    dsimp only
    rw [getD_append_self]
    exact harr va vm
  · intro va vm adapters interval now pref
    have hreg : heapRegistry (mutateReturnedCopies h r va vm) r adapters interval
        = heapRegistry h r adapters interval := by
      rw [heapRegistry, heapRegistry, harr va vm, hmap va vm]
    rw [hreg]

/-- Witness for C10 at a concrete one-cell heap. -/
theorem getters_return_copies_witness :
    refsW.chainRef < heapW.arrays.length ∧
    refsW.healthRef < heapW.maps.length ∧
    readArray (mutateReturnedCopies heapW refsW ["mutated"] []) refsW.chainRef
      = readArray heapW refsW.chainRef :=
  ⟨by decide, by decide,
    (getters_return_copies heapW refsW (by decide) (by decide)).2.2.2.2.1 ["mutated"] []⟩

end OpenFinTerminal
